import Mathlib

/-!
Verification of the dollar utility library against its specification.

The development shallowly embeds the JavaScript source:

* a JS runtime value is modelled by the mutual inductive family
  Value / VList / EList (arrays carry a VList of elements, plain objects
  carry an EList of key/value entries in enumeration order);
* JS numbers are modelled by Int (no claim in scope involves fractional
  or NaN arithmetic);
* a computation that can throw a TypeError is modelled by Option, with
  none standing for the thrown error;
* lodash predicates (isString, isArray, isObject, isNumber, isBoolean,
  isNull, isUndefined, isFunction) become case analyses on Value.
-/

/- ===== The JS value model ===== -/

mutual
inductive Value : Type where
  | vNum : Int → Value
  | vBool : Bool → Value
  | vStr : String → Value
  | vNull : Value
  | vUndef : Value
  | vFun : Value
  | vArr : VList → Value
  | vObj : EList → Value

inductive VList : Type where
  | nil : VList
  | cons : Value → VList → VList

inductive EList : Type where
  | nil : EList
  | cons : String → Value → EList → EList
end

open Value

/-- JS truthiness on the modelled values: 0, false, the empty string, null
and undefined are falsy; every other value (including empty arrays and
objects, and functions) is truthy. falsy v is the model of !v. -/
def falsy : Value → Bool
  | vNum n => n == 0
  | vBool b => !b
  | vStr s => s == ""
  | vNull => true
  | vUndef => true
  | _ => false

/-- Source isPrimitive (src/unnamed/part_001 lines 312-314):
_.isNumber(val) || _.isBoolean(val) || _.isString(val) || _.isNull(val)
|| _.isUndefined(val). -/
def isPrimitive : Value → Bool
  | vNum _ => true
  | vBool _ => true
  | vStr _ => true
  | vNull => true
  | vUndef => true
  | _ => false

/-- Model of lodash _.isNumber. -/
def isNum : Value → Bool
  | vNum _ => true
  | _ => false

/-- Model of lodash _.isString. -/
def isStr : Value → Bool
  | vStr _ => true
  | _ => false

/-- Model of lodash _.isFunction. -/
def isFun : Value → Bool
  | vFun => true
  | _ => false

/- ===== The snake_case to camelCase string primitive ===== -/

/-- Lowercase ASCII letter test: the character class [a-z] of the source
regex /_([a-z])/g. -/
def isLowerAZ (c : Char) : Bool := 'a' ≤ c && c ≤ 'z'

/-- Model of snake.replace(/_([a-z])/g, g => g[1].toUpperCase())
(src/unnamed/part_001 line 308): the regex engine scans left to right;
at a position where an underscore is followed by a lowercase ASCII letter
it emits the uppercased letter and resumes after the two matched
characters; at any other position it emits the character and advances by
one. -/
def replaceScan : List Char → List Char
  | [] => []
  | '_' :: c :: rest =>
    if isLowerAZ c then c.toUpper :: replaceScan rest
    else '_' :: replaceScan (c :: rest)
  | c :: rest => c :: replaceScan rest

/-- Source _snake2camel (src/unnamed/part_001 lines 304-309): falsy or
numeric input is returned unchanged; a string is run through the regex
replacement; any other value would hit snake.replace on a value with no
replace method, a thrown TypeError, modelled by none. -/
def _snake2camel (v : Value) : Option Value :=
  if falsy v || isNum v then some v
  else
    match v with
    | vStr s => some (vStr (String.mk (replaceScan s.data)))
    | _ => none

/-- The key conversion applied by the object walker: object keys are
always strings, for which _snake2camel never throws, so the conversion
is total on keys. On the empty key _snake2camel returns it unchanged via
the falsy branch, which agrees with replaceScan on the empty char list. -/
def camelKey (k : String) : String := String.mk (replaceScan k.data)

/- ===== The object result builder ===== -/

/-- JS property assignment values[k] = v on an object whose entries are
kept in enumeration order: an existing key keeps its position and gets
the new value, a fresh key is appended at the end. -/
def jsInsert : EList → String → Value → EList
  | .nil, k, v => .cons k v .nil
  | .cons k0 v0 es, k, v =>
    if k0 = k then .cons k0 v es else .cons k0 v0 (jsInsert es k v)

/-- Folding the per-entry assignments of _snakeObj2camel into the
initially empty values object, in entry order. -/
def foldInsert : EList → EList → EList
  | acc, .nil => acc
  | acc, .cons k v ps => foldInsert (jsInsert acc k v) ps

/-- The values object produced by performing the recorded assignments in
order, starting from the empty object literal. -/
def buildObj (ps : EList) : EList := foldInsert .nil ps

/- ===== The recursive walkers of snake2camel ===== -/

mutual
/-- The callback of _.map inside _snakeArr2camel (src/unnamed/part_001
lines 274-282): a primitive element goes through _snake2camel, an array
element recurses, anything else (an object, or a function, over whose
enumerable own properties _.each yields nothing) goes through the object
walker. -/
def arrElem : Value → Option Value
  | vArr xs => (_snakeArr2camel xs).map vArr
  | vObj es => (_snakeObj2camel es).map (fun ps => vObj (buildObj ps))
  | vFun => some (vObj EList.nil)
  | v => _snake2camel v

/-- Source _snakeArr2camel (src/unnamed/part_001 lines 270-283) on the
element list of an array. The guard if (!snake) return snake never fires
for an actual array, arrays being truthy. A thrown TypeError from any
element aborts the whole map, hence the none propagation. -/
def _snakeArr2camel : VList → Option VList
  | .nil => some .nil
  | .cons x xs =>
    match arrElem x, _snakeArr2camel xs with
    | some y, some ys => some (.cons y ys)
    | _, _ => none

/-- The value conversion inside the _.each callback of _snakeObj2camel
(src/unnamed/part_001 lines 290-300), reached only for non-function
values: a primitive value is stored as is, an array or object value
recurses (a function value would recurse into the object walker, which
yields the empty object). -/
def objVal : Value → Option Value
  | vArr xs => (_snakeArr2camel xs).map vArr
  | vObj es => (_snakeObj2camel es).map (fun ps => vObj (buildObj ps))
  | vFun => some (vObj EList.nil)
  | v => some v

/-- Source _snakeObj2camel (src/unnamed/part_001 lines 285-302), the
entry traversal: function-valued entries are skipped, every other entry
records the assignment values[_snake2camel(key)] = convertedValue. The
returned EList is the list of recorded assignments in entry order; the
final object is buildObj of it. The guard if (!snake) return snake never
fires for an actual object, objects being truthy. -/
def _snakeObj2camel : EList → Option EList
  | .nil => some .nil
  | .cons k v es =>
    if isFun v then _snakeObj2camel es
    else
      match objVal v, _snakeObj2camel es with
      | some v2, some rest => some (.cons (camelKey k) v2 rest)
      | _, _ => none
end

/-- Source snake2camel, the transform entry point (src/unnamed/part_001
lines 252-268): falsy input is returned unchanged; a string goes through
_snake2camel; an array through _snakeArr2camel; an object (including a
function, for which _.isObject holds and _.each finds no enumerable own
properties) through _snakeObj2camel; any remaining value (a truthy
number, or true) falls through to return null. -/
def snake2camel (v : Value) : Option Value :=
  if falsy v then some v
  else
    match v with
    | vStr _ => _snake2camel v
    | vArr xs => (_snakeArr2camel xs).map vArr
    | vObj es => (_snakeObj2camel es).map (fun ps => vObj (buildObj ps))
    | vFun => (_snakeObj2camel .nil).map (fun ps => vObj (buildObj ps))
    | _ => some vNull


/- ===== The key-style conversion as the spec words it ===== -/

/-- Spec-side restatement of the key-style string conversion, following
the specification's words: for each occurrence of an underscore
immediately followed by a lowercase ASCII letter, delete the underscore
and uppercase that letter; leave all other characters untouched. To be
compared with replaceScan, the source-side model of the regex
replacement. -/
def specKeyStyle : List Char → List Char
  | '_' :: c :: rest =>
    if isLowerAZ c then c.toUpper :: specKeyStyle rest
    else '_' :: specKeyStyle (c :: rest)
  | c :: rest => c :: specKeyStyle rest
  | [] => []

/- ===== Entry-level facts about the object walker ===== -/

/-- The keys of an entry list, in order. -/
def keysOf : EList → List String
  | .nil => []
  | .cons k _ es => k :: keysOf es

/-- The converted keys of the entries that survive the callable filter,
in order. -/
def keptCamelKeys : EList → List String
  | .nil => []
  | .cons k v es =>
    if isFun v then keptCamelKeys es else camelKey k :: keptCamelKeys es

/-- The converted keys of the surviving entries are pairwise distinct. -/
def camelKeysNodup (es : EList) : Prop := (keptCamelKeys es).Nodup

instance (es : EList) : Decidable (camelKeysNodup es) := by
  unfold camelKeysNodup
  infer_instance

/-- Concatenation of entry lists. -/
def appendE : EList → EList → EList
  | .nil, fs => fs
  | .cons k v es, fs => .cons k v (appendE es fs)

/-- The entry-level property claimed of the transform output: walking
input and output entry lists in parallel, each callable-valued input
entry is omitted, each surviving entry appears with its key rewritten by
the key-style conversion, and with its value identical to the input
value whenever that value is primitive. -/
def entriesSpec : EList → EList → Prop
  | .nil, fs => fs = .nil
  | .cons k v es, fs =>
    if isFun v then entriesSpec es fs
    else ∃ v2 fs2, fs = .cons (camelKey k) v2 fs2 ∧
      (isPrimitive v = true → v2 = v) ∧ entriesSpec es fs2

/- ===== Version.js: the version pattern and parse ===== -/

/-- ASCII digit, the regex class \d. -/
def isDigitC (c : Char) : Bool := '0' ≤ c && c ≤ '9'

/-- The regex class \s, restricted to the ASCII whitespace characters
(the inputs in scope contain at most plain spaces). -/
def isSpaceC (c : Char) : Bool :=
  c == ' ' || c == '\t' || c == '\n' || c == '\r' || c == '\x0b' || c == '\x0c'

/-- The quantified group (?:\d+\.*){1,3} of versionPattern
(src/lib/Version.js line 8), scanned greedily: each iteration consumes a
maximal digit run followed by a maximal dot run (the continuation
\s*\(...\) cannot absorb digits or dots, so the greedy scan is the only
possible successful split); at most the fuel's number of iterations is
allowed, and finding a further digit run beyond that makes the whole
anchored match fail, hence none. Returns the consumed characters and the
remainder. -/
def scanBlocks : Nat → List Char → Option (List Char × List Char)
  | 0, [] => some ([], [])
  | 0, c :: cs => if isDigitC c then none else some ([], c :: cs)
  | _ + 1, [] => some ([], [])
  | n + 1, c :: cs =>
    if isDigitC c then
      (scanBlocks n ((c :: cs).dropWhile isDigitC |>.dropWhile (· == '.'))).map
        (fun p =>
          ((c :: cs).takeWhile isDigitC ++
            ((c :: cs).dropWhile isDigitC |>.takeWhile (· == '.')) ++ p.1, p.2))
    else some ([], c :: cs)

/-- The \s*\((\d+)\)\s*$ tail of versionPattern, applied to the
remainder left after the quantified group g: optional whitespace, an
opening parenthesis, a nonempty digit run (the build capture), a closing
parenthesis, optional whitespace, end of input. -/
def afterGroups (r g : List Char) : Option (String × String) :=
  match r.dropWhile isSpaceC with
  | '(' :: r3 =>
    if r3.takeWhile isDigitC = [] then none
    else
      match r3.dropWhile isDigitC with
      | ')' :: r5 =>
        if r5.dropWhile isSpaceC = [] then
          some (String.mk g, String.mk (r3.takeWhile isDigitC))
        else none
      | _ => none
  | _ => none

/-- Model of versionPattern = /^((?:\d+\.*){1,3})\s*\((\d+)\)\s*$/i
(src/lib/Version.js line 8) applied with String.prototype.match: on
success the pair of captured groups (the dotted numeric portion, the
parenthesized digits), on failure none. The i flag is irrelevant, the
pattern holding no letters. -/
def matchVersion (s : String) : Option (String × String) :=
  match scanBlocks 3 s.data with
  | some (g, r) => if g = [] then none else afterGroups r g
  | none => none

/-- The result of Version.parse: the version field models the raw string
wrapped by the returned Version object, the build field the build member
(a captured digit string, or the number 0). -/
structure ParseResult where
  version : String
  build : Value

/-- Source Version.parse (src/lib/Version.js lines 48-57): a non-string
input yields the empty match list, as does a failed pattern match; the
result wraps matches[1] || '' and matches[2] || 0. Both captured groups
are nonempty strings whenever the match succeeds, so the fallbacks fire
exactly on a failed or skipped match. -/
def Version.parse (v : Value) : ParseResult :=
  match v with
  | vStr s =>
    match matchVersion s with
    | some (g, d) => ⟨g, vStr d⟩
    | none => ⟨"", vNum 0⟩
  | _ => ⟨"", vNum 0⟩

/- ===== Version comparison ===== -/

/-- Numeric value of a digit run. -/
def digitsVal (cs : List Char) : Nat :=
  cs.foldl (fun acc c => 10 * acc + (c.toNat - '0'.toNat)) 0

/-- Split on every dot, the model of String.prototype.split('.'):
empty segments are preserved. -/
def splitSegs : List Char → List (List Char)
  | [] => [[]]
  | '.' :: rest => [] :: splitSegs rest
  | c :: rest =>
    match splitSegs rest with
    | s :: ss => (c :: s) :: ss
    | [] => [[c]]

/-- Modelled from the spec: a segment of the compare-version dependency
(not part of this repository's sources) is compared numerically, and an
unparseable segment is treated as 0. -/
def segVal (cs : List Char) : Nat :=
  if !cs.isEmpty && cs.all isDigitC then digitsVal cs else 0

/-- Is every remaining segment zero (the zero padding of the shorter
segment list). -/
def allZero : List Nat → Bool
  | [] => true
  | x :: xs => x == 0 && allZero xs

/-- Modelled from the spec: the three-way segment-list comparison of the
compare-version dependency — compare numeric segments left to right, the
shorter list padded with zeros. -/
def cmpSegs : List Nat → List Nat → Int
  | [], ys => if allZero ys then 0 else -1
  | x :: xs, [] => if x ≠ 0 then 1 else cmpSegs xs []
  | x :: xs, y :: ys =>
    if x < y then -1 else if y < x then 1 else cmpSegs xs ys

/-- Modelled from the spec: the compare-version dependency, a three-way
comparison of two dotted numeric version strings. -/
def compareVersion (a b : String) : Int :=
  cmpSegs ((splitSegs a.data).map segVal) ((splitSegs b.data).map segVal)

/-- Version.prototype.lt (src/lib/Version.js lines 25-27). -/
def Version.lt (a b : String) : Bool := decide (compareVersion a b < 0)

/-- Version.prototype.lte (src/lib/Version.js lines 29-31). -/
def Version.lte (a b : String) : Bool := decide (compareVersion a b ≤ 0)

/-- Version.prototype.gt (src/lib/Version.js lines 33-35). -/
def Version.gt (a b : String) : Bool := decide (0 < compareVersion a b)

/-- Version.prototype.gte (src/lib/Version.js lines 37-39). -/
def Version.gte (a b : String) : Bool := decide (0 ≤ compareVersion a b)

/-- Version.prototype.eq (src/lib/Version.js lines 40-42). -/
def Version.eq (a b : String) : Bool := decide (compareVersion a b = 0)

/-- A valid dotted version string: nonempty digit groups separated by
single dots. -/
def validDotted (s : String) : Bool :=
  (splitSegs s.data).all (fun p => !p.isEmpty && p.all isDigitC)

/-- The grammar of the claim about buildless inputs: one to three
dot-separated nonempty digit groups and nothing else. The fuel is the
number of groups still allowed. -/
def dottedGroups : Nat → List Char → Bool
  | 0, _ => false
  | k + 1, cs =>
    if cs.takeWhile isDigitC = [] then false
    else
      match cs.dropWhile isDigitC with
      | [] => true
      | '.' :: r2 => dottedGroups k r2
      | _ => false

/-- One to three dot-separated digit groups, such as 1.2.3. -/
def isDotted13 (s : String) : Bool := dottedGroups 3 s.data

/- ===== Number coercion, isNumericMap ===== -/

/-- Model of JS Number() string coercion, restricted to optionally
signed decimal digit strings, the only key shapes exercised by the
claims: the empty string coerces to 0, a digit string (optionally
signed) to its value, anything else to NaN, modelled by none. -/
def strToNum (s : String) : Option Int :=
  match s.data with
  | [] => some 0
  | '-' :: rest =>
    if !rest.isEmpty && rest.all isDigitC then some (-(digitsVal rest : Int))
    else none
  | '+' :: rest =>
    if !rest.isEmpty && rest.all isDigitC then some (digitsVal rest : Int)
    else none
  | cs => if cs.all isDigitC then some (digitsVal cs : Int) else none

/-- Model of the global isNaN(key) applied to a property key: the key
string is coerced by Number() and tested for NaN. -/
def jsIsNaN (s : String) : Bool := (strToNum s).isNone

/-- Model of JS Number() on the modelled values (objects coerce through
their string form, which no claim exercises, hence none alongside the
genuinely NaN cases undefined and functions). -/
def jsToNumber : Value → Option Int
  | vNum n => some n
  | vBool b => some (if b then 1 else 0)
  | vStr s => strToNum s
  | vNull => some 0
  | _ => none

/-- The for-in loop body of isNumericMap (src/unnamed/part_001 lines
372-386), walking the keys of a non-array map in enumeration order with
the source's counter. In the fast branch a nonzero counter breaks out
returning the flag, a numeric first key sets the flag; in the non-fast
branch a non-numeric key breaks out returning the flag, which no
statement of that branch ever sets. -/
def isNumericMapLoop (fastCheck : Bool) : List String → Nat → Bool
  | [], _ => false
  | k :: ks, counter =>
    if fastCheck then
      if counter ≠ 0 then false
      else if !jsIsNaN k then true
      else isNumericMapLoop fastCheck ks (counter + 1)
    else
      if jsIsNaN k then false
      else isNumericMapLoop fastCheck ks (counter + 1)

/-- Source isNumericMap (src/unnamed/part_001 lines 366-390) on a
non-array map, represented by its keys in enumeration order; the
isNumericMap flag starts false and is returned after the loop. -/
def isNumericMap (keys : List String) (fastCheck : Bool) : Bool :=
  isNumericMapLoop fastCheck keys 0

/- ===== extractIPv4 ===== -/

/-- One \.\d+ unit of the IPv4 regex: a literal dot followed by a
maximal nonempty digit run; returns the digit run and the remainder. -/
def dotDigits : List Char → Option (List Char × List Char)
  | '.' :: r =>
    if r.takeWhile isDigitC = [] then none
    else some (r.takeWhile isDigitC, r.dropWhile isDigitC)
  | _ => none

/-- The regex /(\d+(?:\.(?:\d+)){3})/ (src/unnamed/part_001 line 340)
tried at one position: a maximal nonempty digit run, then three
dot-digit units; the separators being dots, disjoint from digits, the
greedy maximal-run scan is the only possible successful split, so no
backtracking arises. Returns the matched substring. -/
def matchIPv4At (cs : List Char) : Option (List Char) :=
  if cs.takeWhile isDigitC = [] then none
  else
    match dotDigits (cs.dropWhile isDigitC) with
    | none => none
    | some (d2, r2) =>
      match dotDigits r2 with
      | none => none
      | some (d3, r3) =>
        match dotDigits r3 with
        | none => none
        | some (d4, _) =>
          some (cs.takeWhile isDigitC ++ '.' :: (d2 ++ '.' :: (d3 ++ '.' :: d4)))

/-- Leftmost match of the unanchored IPv4 regex: the engine tries each
start position left to right. -/
def findIPv4 : List Char → Option (List Char)
  | [] => none
  | c :: rest =>
    match matchIPv4At (c :: rest) with
    | some m => some m
    | none => findIPv4 rest

/-- Source extractIPv4 (src/unnamed/part_001 lines 336-345): a falsy
(empty) string is returned as is; otherwise ip.match(...) is consulted,
and when it returns null the subsequent matches[1] access throws a
TypeError, modelled by error; on a match the captured substring is
returned. -/
def extractIPv4 (ip : String) : Except Unit String :=
  if ip = "" then .ok ip
  else
    match findIPv4 ip.data with
    | some m => .ok (String.mk m)
    | none => .error ()

/-- The claim's reading of a substring of four dot-separated digit
groups: somewhere in the string, four nonempty digit runs joined by
single dots. -/
def hasIPv4 (cs : List Char) : Prop :=
  ∃ pre d1 d2 d3 d4 post : List Char,
    cs = pre ++ (d1 ++ '.' :: (d2 ++ '.' :: (d3 ++ '.' :: (d4 ++ post)))) ∧
    d1 ≠ [] ∧ d2 ≠ [] ∧ d3 ≠ [] ∧ d4 ≠ [] ∧
    (∀ c ∈ d1, isDigitC c = true) ∧ (∀ c ∈ d2, isDigitC c = true) ∧
    (∀ c ∈ d3, isDigitC c = true) ∧ (∀ c ∈ d4, isDigitC c = true)

/-- C2: the key-style conversion of the code coincides with the spec's
character rule: each underscore immediately followed by a lowercase
ASCII letter is deleted and that letter uppercased, every other
character is untouched; this is what a string passed directly to
transform goes through, and what every object key goes through; a
numeric value given to the conversion is returned unchanged without
string coercion. -/
theorem keyStyle_conversion_spec :
    (∀ cs : List Char, replaceScan cs = specKeyStyle cs) ∧
    (∀ s : String,
      snake2camel (vStr s) = some (vStr (String.mk (specKeyStyle s.data)))) ∧
    (∀ k : String, camelKey k = String.mk (specKeyStyle k.data)) ∧
    (∀ n : Int, _snake2camel (vNum n) = some (vNum n)) := by
  have hscan : ∀ cs : List Char, replaceScan cs = specKeyStyle cs := by
    intro cs
    induction cs using replaceScan.induct <;>
      simp [replaceScan, specKeyStyle, *]
  refine ⟨hscan, ?_, ?_, ?_⟩
  · intro s
    by_cases h : s = ""
    · subst h; rfl
    · have hne : (s == "") = false := by
        simpa using h
      simp [snake2camel, _snake2camel, falsy, isNum, hne, hscan]
  · intro k
    simp [camelKey, hscan]
  · intro n
    simp [_snake2camel, isNum]

/-- C5: a scalar-falsy root input (0, false, the empty string, null, the
missing-value sentinel) is returned unchanged by transform. -/
theorem transform_falsy_root_id (v : Value) (h : falsy v = true) :
    snake2camel v = some v := by
  simp [snake2camel, h]

/-- Witness for C5 at the root input 0. -/
theorem transform_falsy_root_id_witness :
    falsy (vNum 0) = true ∧ snake2camel (vNum 0) = some (vNum 0) :=
  ⟨rfl, transform_falsy_root_id (vNum 0) rfl⟩

/-- C4: evaluating the code at the failing input [true]: the sequence is
not falsy and its single element is a primitive, yet transform throws a
TypeError (true.replace is not a function) instead of producing a
sequence of the same length. -/
theorem transform_true_element_raises :
    falsy (vArr (.cons (vBool true) .nil)) = false ∧
    isPrimitive (vBool true) = true ∧
    snake2camel (vArr (.cons (vBool true) .nil)) = none :=
  ⟨rfl, rfl, rfl⟩

/-- C10 counterexample: the truthy primitive true occurring inside a
sequence is not passed through unchanged; the whole transform throws
(modelled by none) on the sequence [2, true]. -/
theorem transform_root_primitive_counterexample :
    isPrimitive (vBool true) = true ∧ falsy (vBool true) = false ∧
    snake2camel (vArr (.cons (vNum 2) (.cons (vBool true) .nil))) = none :=
  ⟨rfl, rfl, rfl⟩

/-- C10 amended: a truthy non-string primitive at the root makes
transform return the null sentinel; the same values occurring as mapping
values are passed through unchanged, and numbers occurring as sequence
elements are passed through unchanged, but the boolean true as a
sequence element raises a TypeError. -/
theorem transform_root_primitive_null_amended :
    (∀ v, isPrimitive v = true → falsy v = false → isStr v = false →
      snake2camel v = some vNull) ∧
    (∀ v, isPrimitive v = true → objVal v = some v) ∧
    (∀ n : Int, arrElem (vNum n) = some (vNum n)) ∧
    arrElem (vBool true) = none := by
  refine ⟨?_, ?_, ?_, rfl⟩
  · intro v h1 h2 h3
    cases v <;> simp_all [isPrimitive, falsy, isStr, snake2camel]
  · intro v h
    cases v <;> simp_all [isPrimitive, objVal]
  · intro n
    simp [arrElem, _snake2camel, isNum]

/-- Witness for C10 at the root input 5, the mapping value true and the
sequence element 3. -/
theorem transform_root_primitive_null_amended_witness :
    snake2camel (vNum 5) = some vNull ∧
    objVal (vBool true) = some (vBool true) ∧
    arrElem (vNum 3) = some (vNum 3) :=
  ⟨transform_root_primitive_null_amended.1 (vNum 5) rfl rfl rfl,
   transform_root_primitive_null_amended.2.1 (vBool true) rfl,
   transform_root_primitive_null_amended.2.2.1 3⟩

theorem objVal_prim (v : Value) (h : isPrimitive v = true) :
    objVal v = some v := by
  cases v <;> simp_all [isPrimitive, objVal]

theorem appendE_nil : ∀ es : EList, appendE es .nil = es
  | .nil => rfl
  | .cons k v es => by simp [appendE, appendE_nil es]

theorem appendE_assoc :
    ∀ a b c : EList, appendE (appendE a b) c = appendE a (appendE b c)
  | .nil, _, _ => rfl
  | .cons k v a, b, c => by simp [appendE, appendE_assoc a b c]

theorem keysOf_append :
    ∀ a b : EList, keysOf (appendE a b) = keysOf a ++ keysOf b
  | .nil, _ => rfl
  | .cons k v a, b => by simp [appendE, keysOf, keysOf_append a b]

/-- Property assignment under a key absent from the object appends the
entry at the end. -/
theorem jsInsert_fresh :
    ∀ (acc : EList) (k : String) (v : Value), k ∉ keysOf acc →
      jsInsert acc k v = appendE acc (.cons k v .nil)
  | .nil, _, _, _ => rfl
  | .cons k0 v0 es, k, v, h => by
    have hne : k0 ≠ k := by
      intro he
      exact h (by simp [keysOf, he])
    have hmem : k ∉ keysOf es := by
      intro hm
      exact h (by simp [keysOf, hm])
    simp [jsInsert, appendE, hne, jsInsert_fresh es k v hmem]

/-- Performing assignments whose keys are pairwise distinct and absent
from the accumulated object just appends the entries in order. -/
theorem foldInsert_fresh :
    ∀ (ps acc : EList), (keysOf ps).Nodup →
      (∀ k ∈ keysOf ps, k ∉ keysOf acc) →
      foldInsert acc ps = appendE acc ps
  | .nil, acc, _, _ => by simp [foldInsert, appendE_nil]
  | .cons k v ps, acc, hnd, hdisj => by
    have hk : k ∉ keysOf acc := hdisj k (by simp [keysOf])
    have hnd0 : k ∉ keysOf ps ∧ (keysOf ps).Nodup := by
      simpa [keysOf] using hnd
    have hdisj2 : ∀ k2 ∈ keysOf ps,
        k2 ∉ keysOf (appendE acc (.cons k v .nil)) := by
      intro k2 hk2
      rw [keysOf_append]
      simp only [keysOf, List.mem_append, List.mem_cons,
        List.not_mem_nil, or_false]
      rintro (h2 | h2)
      · exact hdisj k2 (by simp [keysOf, hk2]) h2
      · exact hnd0.1 (h2 ▸ hk2)
    calc foldInsert acc (.cons k v ps)
        = foldInsert (jsInsert acc k v) ps := by simp [foldInsert]
      _ = foldInsert (appendE acc (.cons k v .nil)) ps := by
          rw [jsInsert_fresh acc k v hk]
      _ = appendE (appendE acc (.cons k v .nil)) ps :=
          foldInsert_fresh ps _ hnd0.2 hdisj2
      _ = appendE acc (appendE (.cons k v .nil) ps) := appendE_assoc ..
      _ = appendE acc (.cons k v ps) := by simp [appendE]

/-- The recorded assignment list of the object walker satisfies the
entry-level property, and its keys are exactly the converted keys of the
surviving entries. -/
theorem snakeObj_entries_go :
    ∀ es ps, _snakeObj2camel es = some ps →
      entriesSpec es ps ∧ keysOf ps = keptCamelKeys es
  | .nil, ps, h => by
    simp [_snakeObj2camel] at h
    subst h
    exact ⟨rfl, rfl⟩
  | .cons k v es, ps, h => by
    by_cases hf : isFun v
    · rw [_snakeObj2camel, if_pos hf] at h
      have ih := snakeObj_entries_go es ps h
      refine ⟨?_, ?_⟩
      · simpa [entriesSpec, hf] using ih.1
      · simpa [keptCamelKeys, hf] using ih.2
    · rw [_snakeObj2camel, if_neg hf] at h
      rcases hov : objVal v with - | v2 <;> rw [hov] at h
      · simp at h
      rcases hoe : _snakeObj2camel es with - | rest <;> rw [hoe] at h
      · simp at h
      simp only [Option.some.injEq] at h
      subst h
      have ih := snakeObj_entries_go es rest hoe
      refine ⟨?_, ?_⟩
      · simp only [entriesSpec, hf, if_false]
        exact ⟨v2, rest, rfl, fun hp => by
          have := objVal_prim v hp
          rw [this] at hov
          exact ((Option.some.injEq ..).mp hov).symm, ih.1⟩
      · simp [keysOf, keptCamelKeys, hf, ih.2]

/-- C3 counterexample: at the mapping with entries a_b mapped to 1 and
aB mapped to 2 both converted keys are aB, so the second assignment
overwrites the first and the output is the single entry aB mapped to 2:
the non-callable entry a_b with primitive value 1 is not kept, which
refutes the claimed entry-level property at this input. -/
theorem transform_mapping_collision_counterexample :
    snake2camel (vObj (.cons "a_b" (vNum 1) (.cons "aB" (vNum 2) .nil))) =
      some (vObj (.cons "aB" (vNum 2) .nil)) ∧
    ¬ entriesSpec (.cons "a_b" (vNum 1) (.cons "aB" (vNum 2) .nil))
        (.cons "aB" (vNum 2) .nil) := by
  refine ⟨rfl, ?_⟩
  intro h
  simp only [entriesSpec, isFun, Bool.false_eq_true, if_false] at h
  rcases h with ⟨v2, fs2, heq, hprim, -⟩
  injection heq with hk hv hrest
  have h12 := hprim rfl
  rw [← hv] at h12
  injection h12 with hn
  exact absurd hn (by decide)

/-- C3 amended: for a mapping input on which transform returns a
mapping (a nested sequence element true makes it throw instead) and
whose non-callable entries have pairwise distinct key-style-converted
keys, transform produces a new mapping in which every entry whose value
is callable is omitted silently, every remaining key is rewritten by
the key-style conversion, and every remaining primitive value is kept
exactly as it was, not string-converted. -/
theorem transform_mapping_entries (es fs : EList)
    (h : snake2camel (vObj es) = some (vObj fs))
    (hnd : camelKeysNodup es) : entriesSpec es fs := by
  simp only [snake2camel, falsy, Bool.false_eq_true, if_false,
    Option.map_eq_some'] at h
  rcases h with ⟨ps, hps, hobj⟩
  have hinj : buildObj ps = fs := by
    injection hobj
  have hgo := snakeObj_entries_go es ps hps
  have hkeys : (keysOf ps).Nodup := by
    rw [hgo.2]
    exact hnd
  have hbuild : buildObj ps = ps := by
    unfold buildObj
    rw [foldInsert_fresh ps .nil hkeys (by intro k _; simp [keysOf])]
    rfl
  rw [← hinj, hbuild]
  exact hgo.1

/-- Witness for C3 at the spec's example mapping
with a callable entry, a numeric entry and a string entry. -/
theorem transform_mapping_entries_witness :
    snake2camel (vObj (.cons "key_my" vFun (.cons "my_key_name2" (vNum 234)
        (.cons "my_key_name3" (vStr "asdf") .nil)))) =
      some (vObj (.cons "myKeyName2" (vNum 234)
        (.cons "myKeyName3" (vStr "asdf") .nil))) ∧
    camelKeysNodup (.cons "key_my" vFun (.cons "my_key_name2" (vNum 234)
        (.cons "my_key_name3" (vStr "asdf") .nil))) ∧
    entriesSpec (.cons "key_my" vFun (.cons "my_key_name2" (vNum 234)
        (.cons "my_key_name3" (vStr "asdf") .nil)))
      (.cons "myKeyName2" (vNum 234)
        (.cons "myKeyName3" (vStr "asdf") .nil)) :=
  ⟨rfl, by decide,
   transform_mapping_entries _ _ rfl (by decide)⟩

/- ===== Proofs about Version.parse ===== -/

theorem dropWhile_suffix_of (p : Char → Bool) (l : List Char) :
    l.dropWhile p <:+ l :=
  ⟨l.takeWhile p, List.takeWhile_append_dropWhile p l⟩

/-- The remainder returned by the group scanner is a suffix of its
input. -/
theorem scanBlocks_suffix :
    ∀ n cs g r, scanBlocks n cs = some (g, r) → r <:+ cs
  | 0, [], g, r, h => by
    simp only [scanBlocks, Option.some.injEq, Prod.mk.injEq] at h
    rw [← h.2]
  | 0, c :: cs, g, r, h => by
    simp only [scanBlocks] at h
    split at h
    · exact absurd h (by simp)
    · simp only [Option.some.injEq, Prod.mk.injEq] at h
      rw [← h.2]
  | n + 1, [], g, r, h => by
    simp only [scanBlocks, Option.some.injEq, Prod.mk.injEq] at h
    rw [← h.2]
  | n + 1, c :: cs, g, r, h => by
    simp only [scanBlocks] at h
    split at h
    · rcases hsb : scanBlocks n
          (((c :: cs).dropWhile isDigitC).dropWhile (· == '.'))
        with - | p <;> rw [hsb] at h
      · exact absurd h (by simp)
      · simp only [Option.map_some', Option.some.injEq, Prod.mk.injEq] at h
        have hsub := scanBlocks_suffix n _ p.1 p.2 (by rw [hsb])
        rw [← h.2]
        calc p.2 <:+ ((c :: cs).dropWhile isDigitC).dropWhile (· == '.') := hsub
          _ <:+ (c :: cs).dropWhile isDigitC := dropWhile_suffix_of ..
          _ <:+ c :: cs := dropWhile_suffix_of ..
    · simp only [Option.some.injEq, Prod.mk.injEq] at h
      rw [← h.2]

/-- A successful match of the pattern tail requires an opening
parenthesis in the remainder. -/
theorem afterGroups_mem (r g : List Char) (p : String × String)
    (h : afterGroups r g = some p) : '(' ∈ r := by
  unfold afterGroups at h
  split at h
  · next r3 heq =>
    have hmem : '(' ∈ r.dropWhile isSpaceC := by
      rw [heq]
      exact List.mem_cons_self ..
    exact (dropWhile_suffix_of isSpaceC r).sublist.subset hmem
  · exact absurd h (by simp)

/-- A successful match of the version pattern requires an opening
parenthesis somewhere in the input. -/
theorem matchVersion_mem (s : String) (p : String × String)
    (h : matchVersion s = some p) : '(' ∈ s.data := by
  unfold matchVersion at h
  split at h
  · next g r hsb =>
    split at h
    · exact absurd h (by simp)
    · have hr : r <:+ s.data := scanBlocks_suffix 3 s.data g r hsb
      exact hr.sublist.subset (afterGroups_mem r g p h)
  · exact absurd h (by simp)

/-- Every character of a string in the dotted-groups grammar is a digit
or a dot. -/
theorem dottedGroups_chars :
    ∀ k cs, dottedGroups k cs = true →
      ∀ c ∈ cs, isDigitC c = true ∨ c = '.'
  | 0, cs, h => by simp [dottedGroups] at h
  | k + 1, cs, h => by
    intro c hc
    rw [dottedGroups] at h
    split at h
    · exact absurd h (by simp)
    · rw [← List.takeWhile_append_dropWhile isDigitC cs] at hc
      rcases List.mem_append.mp hc with hm | hm
      · exact Or.inl (List.mem_takeWhile_imp hm)
      · split at h
        · exact absurd hm (by simp [*])
        · next r2 heq =>
          rw [heq] at hm
          rcases List.mem_cons.mp hm with hm2 | hm2
          · exact Or.inr hm2
          · exact dottedGroups_chars k r2 h c hm2
        · exact absurd h (by simp)

/-- C1 counterexample: on the buildless input 1.2.3 the parse result
wraps the empty string, not the numeric-dotted portion of the input. -/
theorem parse_dotted_no_build_counterexample :
    (Version.parse (vStr "1.2.3")).version = "" ∧
    (Version.parse (vStr "1.2.3")).version ≠ "1.2.3" ∧
    (Version.parse (vStr "1.2.3")).build = vNum 0 :=
  ⟨rfl, by decide, rfl⟩

/-- C1 amended: the trailing parenthesized build number is required by
the recognized pattern, so a string of one to three dot-separated digit
groups with no build suffix fails to match and parse returns the
empty-string version with build 0. -/
theorem parse_dotted_no_build_amended (s : String)
    (h : isDotted13 s = true) :
    Version.parse (vStr s) = ⟨"", vNum 0⟩ := by
  have hnp : '(' ∉ s.data := by
    intro hmem
    rcases dottedGroups_chars 3 s.data h '(' hmem with hd | hd
    · exact absurd hd (by decide)
    · exact absurd hd (by decide)
  have hmv : matchVersion s = none := by
    rcases hm : matchVersion s with - | p
    · rfl
    · exact absurd (matchVersion_mem s p hm) hnp
  simp [Version.parse, hmv]

/-- Witness for C1's amended claim at the input 1.2.3. -/
theorem parse_dotted_no_build_amended_witness :
    isDotted13 "1.2.3" = true ∧
    Version.parse (vStr "1.2.3") = ⟨"", vNum 0⟩ :=
  ⟨rfl, parse_dotted_no_build_amended "1.2.3" rfl⟩

/- ===== Proofs about the comparison operators ===== -/

/-- C6: on valid dotted version strings exactly one of lt, eq, gt holds,
gte agrees with gt-or-eq, and lte agrees with lt-or-eq. -/
theorem version_order_trichotomy (a b : String)
    (_ha : validDotted a = true) (_hb : validDotted b = true) :
    ((Version.lt a b = true ∧ Version.eq a b = false ∧
        Version.gt a b = false) ∨
     (Version.lt a b = false ∧ Version.eq a b = true ∧
        Version.gt a b = false) ∨
     (Version.lt a b = false ∧ Version.eq a b = false ∧
        Version.gt a b = true)) ∧
    Version.gte a b = (Version.gt a b || Version.eq a b) ∧
    Version.lte a b = (Version.lt a b || Version.eq a b) := by
  rcases lt_trichotomy (compareVersion a b) 0 with h | h | h <;>
    simp [Version.lt, Version.lte, Version.gt, Version.gte, Version.eq,
      h, le_of_lt, not_lt_of_gt, ne_of_gt, ne_of_lt]

/-- Witness for C6 at the versions 1.2.3 and 1.2.10. -/
theorem version_order_trichotomy_witness :
    validDotted "1.2.3" = true ∧ validDotted "1.2.10" = true ∧
    Version.lte "1.2.3" "1.2.10" =
      (Version.lt "1.2.3" "1.2.10" || Version.eq "1.2.3" "1.2.10") :=
  ⟨rfl, rfl,
   (version_order_trichotomy "1.2.3" "1.2.10" rfl rfl).2.2⟩

/- ===== C7: parse on a matching input, and the fallbacks ===== -/

/-- C7: parse of 1.2.3 (45) wraps the version 1.2.3 and a build that is
the captured digit string 45, the integer 45 under numeric
interpretation; a non-string input, and a string the pattern rejects,
yield the empty version and build 0. -/
theorem parse_build_and_fallback :
    (Version.parse (vStr "1.2.3 (45)")).version = "1.2.3" ∧
    (Version.parse (vStr "1.2.3 (45)")).build = vStr "45" ∧
    jsToNumber (Version.parse (vStr "1.2.3 (45)")).build = some 45 ∧
    (∀ v : Value, isStr v = false → Version.parse v = ⟨"", vNum 0⟩) ∧
    (∀ s : String, matchVersion s = none →
      Version.parse (vStr s) = ⟨"", vNum 0⟩) := by
  refine ⟨rfl, rfl, rfl, ?_, ?_⟩
  · intro v h
    cases v <;> simp_all [Version.parse, isStr]
  · intro s h
    simp [Version.parse, h]

/-- Witness for C7's fallbacks at the non-string input null and the
non-matching input not a version. -/
theorem parse_build_and_fallback_witness :
    isStr vNull = false ∧ Version.parse vNull = ⟨"", vNum 0⟩ ∧
    matchVersion "not a version" = none ∧
    Version.parse (vStr "not a version") = ⟨"", vNum 0⟩ :=
  ⟨rfl, parse_build_and_fallback.2.2.2.1 vNull rfl, rfl,
   parse_build_and_fallback.2.2.2.2 "not a version" rfl⟩

/- ===== C8: the non-fast branch of isNumericMap ===== -/

/-- C8: evaluating the code against the claim: the non-fast branch of
the loop never sets the flag, so isNumericMap with fastCheck false
returns false for every key list, in particular for a map whose every
key is numeric, where the claim demands true. -/
theorem isNumericMap_nonfast_always_false :
    (∀ keys : List String, isNumericMap keys false = false) ∧
    jsIsNaN "1" = false ∧
    isNumericMap ["1"] false = false := by
  have hloop : ∀ (ks : List String) (c : Nat),
      isNumericMapLoop false ks c = false := by
    intro ks
    induction ks with
    | nil => intro c; rfl
    | cons k ks ih =>
      intro c
      simp [isNumericMapLoop, ih]
  exact ⟨fun keys => hloop keys 0, rfl, hloop ["1"] 0⟩

/- ===== C9: extractIPv4 on inputs with no IPv4 substring ===== -/

/-- A successful dot-digits step decomposes its input as a dot followed
by a nonempty digit run and the remainder. -/
theorem dotDigits_sound (r d rest : List Char)
    (h : dotDigits r = some (d, rest)) :
    r = '.' :: (d ++ rest) ∧ d ≠ [] ∧ ∀ c ∈ d, isDigitC c = true := by
  unfold dotDigits at h
  split at h
  · next r2 =>
    split at h
    · exact absurd h (by simp)
    · next hne =>
      simp only [Option.some.injEq, Prod.mk.injEq] at h
      refine ⟨?_, ?_, ?_⟩
      · rw [← h.1, ← h.2, List.takeWhile_append_dropWhile]
      · rw [← h.1]; exact hne
      · intro c hc
        rw [← h.1] at hc
        exact List.mem_takeWhile_imp hc
  · exact absurd h (by simp)

/-- A successful match at a position yields the claimed four-group
decomposition of that position's suffix. -/
theorem matchIPv4At_sound (cs m : List Char) (h : matchIPv4At cs = some m) :
    ∃ d1 d2 d3 d4 post : List Char,
      cs = d1 ++ '.' :: (d2 ++ '.' :: (d3 ++ '.' :: (d4 ++ post))) ∧
      d1 ≠ [] ∧ d2 ≠ [] ∧ d3 ≠ [] ∧ d4 ≠ [] ∧
      (∀ c ∈ d1, isDigitC c = true) ∧ (∀ c ∈ d2, isDigitC c = true) ∧
      (∀ c ∈ d3, isDigitC c = true) ∧ (∀ c ∈ d4, isDigitC c = true) := by
  unfold matchIPv4At at h
  split at h
  · exact absurd h (by simp)
  · next h1 =>
    split at h
    · exact absurd h (by simp)
    · next d2 r2 h2 =>
      split at h
      · exact absurd h (by simp)
      · next d3 r3 h3 =>
        split at h
        · exact absurd h (by simp)
        · next d4 r4 h4 =>
          obtain ⟨e2, hne2, hd2⟩ := dotDigits_sound _ _ _ h2
          obtain ⟨e3, hne3, hd3⟩ := dotDigits_sound _ _ _ h3
          obtain ⟨e4, hne4, hd4⟩ := dotDigits_sound _ _ _ h4
          refine ⟨cs.takeWhile isDigitC, d2, d3, d4, r4, ?_, h1, hne2,
            hne3, hne4, fun c hc => List.mem_takeWhile_imp hc, hd2, hd3,
            hd4⟩
          conv_lhs => rw [← List.takeWhile_append_dropWhile isDigitC cs]
          rw [e2, e3, e4]

/-- A successful unanchored search yields an IPv4 substring. -/
theorem findIPv4_sound : ∀ cs m, findIPv4 cs = some m → hasIPv4 cs
  | [], m, h => by simp [findIPv4] at h
  | c :: rest, m, h => by
    rw [findIPv4] at h
    rcases hm : matchIPv4At (c :: rest) with - | m2 <;> rw [hm] at h
    · obtain ⟨pre, d1, d2, d3, d4, post, heq, hs⟩ :=
        findIPv4_sound rest m h
      exact ⟨c :: pre, d1, d2, d3, d4, post, by rw [List.cons_append, heq],
        hs⟩
    · obtain ⟨d1, d2, d3, d4, post, heq, hs⟩ := matchIPv4At_sound _ _ hm
      exact ⟨[], d1, d2, d3, d4, post, by rw [List.nil_append, heq], hs⟩

/-- C9: on a nonempty string containing no four dot-separated digit
groups, extractIPv4 throws (it indexes the null result of the failed
match) instead of returning the input or a sentinel. -/
theorem extractIPv4_no_match_raises (s : String) (h1 : s ≠ "")
    (h2 : ¬ hasIPv4 s.data) : extractIPv4 s = .error () := by
  have hf : findIPv4 s.data = none := by
    rcases hm : findIPv4 s.data with - | m
    · rfl
    · exact absurd (findIPv4_sound s.data m hm) h2
  simp [extractIPv4, h1, hf]

/-- Witness for C9 at the input ab. -/
theorem extractIPv4_no_match_raises_witness :
    ("ab" : String) ≠ "" ∧ ¬ hasIPv4 "ab".data ∧
    extractIPv4 "ab" = .error () := by
  have hno : ¬ hasIPv4 "ab".data := by
    rintro ⟨pre, d1, d2, d3, d4, post, heq, -⟩
    have hmem : '.' ∈ "ab".data := by
      rw [heq]
      simp
    exact absurd hmem (by decide)
  exact ⟨by decide, hno, extractIPv4_no_match_raises "ab" (by decide) hno⟩
